import Mathlib

/-!
Verification of core logic of the Qgis2threejs plugin.

The Python sources embedded here are `datamanager.py`, `qgis2threejscore.py`
and `qgis2threejsdialog.py`.  Pure functions are translated to Lean
functions; stateful methods are translated to explicit state passing
(the mutated object field is an argument and a component of the result).
Python's arbitrary-precision integers become `Nat`/`Int`; the real-valued
arithmetic of `qgis2threejscore.py` is embedded over `ℚ` (exact arithmetic;
the square root appearing in `calculateDEMSize` is embedded through the
integer square root, see the justification lemmas accompanying `scaledDim`).
Fallible constructions (Python `ZeroDivisionError`) are embedded with
`Except`/`Option`.
-/

namespace Qgis2threejs

/-! ## DataManager (datamanager.py, lines 32-47)

`DataManager` keeps `self._list`, a list of unique items.  `_index(data)`
returns the position of `data` in the list if present (Python
`list.index` returns the first position), otherwise appends `data` and
returns the previous length.  The state `self._list` is passed explicitly:
the result is the pair (returned index, updated list). -/

namespace DataManager

/-- Embeds `DataManager._index` (datamanager.py lines 41-47):
if `data in self._list` return `self._list.index(data)`; otherwise
append `data` and return the previous length. -/
def _index {α : Type} [DecidableEq α] (data : α) (l : List α) : ℕ × List α :=
  if data ∈ l then (l.indexOf data, l)
  else (l.length, l ++ [data])

/-- Embeds `DataManager.count` (datamanager.py lines 38-39). -/
def count {α : Type} (l : List α) : ℕ := l.length

end DataManager

/-! ## RotatedRect (rotatedrect.py, not among the provided sources)

Modelled from the spec: `rotatedrect.py` is not among the provided source
files; the spec (§4.1) says `transform(x,y,z)` "normalizes (x,y) into the
unrotated extent's unit square" and that the map extent is "a map extent
rectangle (possibly rotated)".  A rotated rectangle is modelled by its
center, width, height and the cosine/sine pair of its rotation angle
(keeping the embedding inside `ℚ`; theorems assume `rc^2 + rs^2 = 1`). -/

structure RRect where
  cx : ℚ
  cy : ℚ
  w : ℚ
  h : ℚ
  rc : ℚ
  rs : ℚ
deriving DecidableEq

/-- Modelled from the spec: normalize a map point into the unrotated
extent's unit square — translate to the center, rotate by the inverse
rotation, divide by width/height and re-center to `[0,1]`. -/
def RRect.normalizePoint (r : RRect) (x y : ℚ) : ℚ × ℚ :=
  let dx := x - r.cx
  let dy := y - r.cy
  let u := r.rc * dx + r.rs * dy
  let v := -r.rs * dx + r.rc * dy
  (u / r.w + 1/2, v / r.h + 1/2)

/-- Corner of the (rotated) map extent for a sign pair
`sx, sy ∈ {-1, 1}`: the center plus the rotation applied to
`(sx·w/2, sy·h/2)`. -/
def RRect.corner (r : RRect) (sx sy : ℚ) : ℚ × ℚ :=
  (r.cx + r.rc * (sx * r.w / 2) - r.rs * (sy * r.h / 2),
   r.cy + r.rs * (sx * r.w / 2) + r.rc * (sy * r.h / 2))

/-- Modelled from the spec: the axis-aligned rectangle obtained by
ignoring the rotation (used by `ImageManager.renderedImage` through
`extent.unrotatedRect()`). -/
structure Rect where
  xmin : ℚ
  ymin : ℚ
  xmax : ℚ
  ymax : ℚ
deriving DecidableEq

def RRect.unrotatedRect (r : RRect) : Rect :=
  ⟨r.cx - r.w / 2, r.cy - r.h / 2, r.cx + r.w / 2, r.cy + r.h / 2⟩

/-- Rotation of the rotated rectangle, as the cosine/sine pair (the
Python source stores the angle; only its round-tripping matters here). -/
def RRect.rotationPair (r : RRect) : ℚ × ℚ := (r.rc, r.rs)

/-! ## ImageManager descriptors (datamanager.py, lines 50-76) -/

namespace ImageManager

/-- Embeds the image descriptor tuples formed in `imageIndex`,
`canvasImageIndex`, `mapImageIndex` and `layerImageIndex`
(datamanager.py lines 62-76): a type tag (`IMAGE_FILE`, `CANVAS_IMAGE`,
`MAP_IMAGE`, `LAYER_IMAGE`) paired with type-specific parameters. -/
inductive ImgDescriptor where
  | imageFile (path : String)
  | canvasImage (transpBackground : Bool)
  | mapImage (width height : ℕ) (extent : RRect) (transpBackground : Bool)
  | layerImage (layerids : List String) (width height : ℕ) (extent : RRect)
      (transpBackground : Bool)
deriving DecidableEq

/-- Embeds `ImageManager.imageIndex` (datamanager.py lines 62-64). -/
def imageIndex (path : String) (l : List ImgDescriptor) : ℕ × List ImgDescriptor :=
  DataManager._index (ImgDescriptor.imageFile path) l

/-- Embeds `ImageManager.canvasImageIndex` (datamanager.py lines 66-68). -/
def canvasImageIndex (transpBackground : Bool) (l : List ImgDescriptor) :
    ℕ × List ImgDescriptor :=
  DataManager._index (ImgDescriptor.canvasImage transpBackground) l

/-- Embeds `ImageManager.mapImageIndex` (datamanager.py lines 70-72). -/
def mapImageIndex (width height : ℕ) (extent : RRect) (transpBackground : Bool)
    (l : List ImgDescriptor) : ℕ × List ImgDescriptor :=
  DataManager._index (ImgDescriptor.mapImage width height extent transpBackground) l

/-- Embeds `ImageManager.layerImageIndex` (datamanager.py lines 74-76). -/
def layerImageIndex (layerids : List String) (width height : ℕ) (extent : RRect)
    (transpBackground : Bool) (l : List ImgDescriptor) : ℕ × List ImgDescriptor :=
  DataManager._index
    (ImgDescriptor.layerImage layerids width height extent transpBackground) l

end ImageManager

/-! ## MaterialManager (datamanager.py, lines 196-258) -/

namespace MaterialManager

def MESH_LAMBERT : ℕ := 0
def MESH_PHONG : ℕ := 1
def LINE_BASIC : ℕ := 2
def SPRITE : ℕ := 3
def WIREFRAME : ℕ := 10
def MESH_LAMBERT_SMOOTH : ℕ := 0
def MESH_LAMBERT_FLAT : ℕ := 11
def ERROR_COLOR : String := "0"

/-- Embeds the material descriptor tuples appended to `self._list` by the
`MaterialManager` index methods (datamanager.py lines 218-258).  Color
materials are 4-tuples `(type, color, opacity, doubleSide)`; image
materials replace the color slot with their own parameters. -/
inductive MatDescriptor where
  | colorMat (ty : ℕ) (color : String) (opacity : ℚ) (doubleSide : Bool)
  | canvasImage (transpBackground : Bool) (opacity : ℚ) (doubleSide : Bool)
  | mapImage (width height : ℕ) (extent : RRect) (transpBackground : Bool)
      (opacity : ℚ) (doubleSide : Bool)
  | layerImage (layerids : List String) (width height : ℕ) (extent : RRect)
      (transpBackground : Bool) (opacity : ℚ) (doubleSide : Bool)
  | imageFile (path : String) (transpBackground : Bool) (opacity : ℚ)
      (doubleSide : Bool)
  | sprite (path : String) (transpBackground : Bool) (opacity : ℚ)
deriving DecidableEq

/-- Embeds `MaterialManager._indexCol` (datamanager.py lines 218-222):
`if color[0:2] != "0x": color = self.ERROR_COLOR`, then form the tuple
`(type, color, opacity, doubleSide)` and call `self._index`.  The Python
slice `color[0:2]` takes the first two characters of the string, embedded
as `color.data.take 2`. -/
def _indexCol (ty : ℕ) (color : String) (opacity : ℚ) (doubleSide : Bool)
    (l : List MatDescriptor) : ℕ × List MatDescriptor :=
  let c := if color.data.take 2 = "0x".data then color else ERROR_COLOR
  DataManager._index (MatDescriptor.colorMat ty c opacity doubleSide) l

/-- Embeds `MaterialManager.getMeshLambertIndex` (datamanager.py 224-225). -/
def getMeshLambertIndex (color : String) (opacity : ℚ) (doubleSide : Bool)
    (l : List MatDescriptor) : ℕ × List MatDescriptor :=
  _indexCol MESH_LAMBERT color opacity doubleSide l

/-- Embeds `MaterialManager.getSmoothMeshLambertIndex` (datamanager.py 227-228). -/
def getSmoothMeshLambertIndex (color : String) (opacity : ℚ) (doubleSide : Bool)
    (l : List MatDescriptor) : ℕ × List MatDescriptor :=
  _indexCol MESH_LAMBERT_SMOOTH color opacity doubleSide l

/-- Embeds `MaterialManager.getFlatMeshLambertIndex` (datamanager.py 230-231). -/
def getFlatMeshLambertIndex (color : String) (opacity : ℚ) (doubleSide : Bool)
    (l : List MatDescriptor) : ℕ × List MatDescriptor :=
  _indexCol MESH_LAMBERT_FLAT color opacity doubleSide l

/-- Embeds `MaterialManager.getLineBasicIndex` (datamanager.py 233-234);
`doubleSide` takes the Python default `False`. -/
def getLineBasicIndex (color : String) (opacity : ℚ)
    (l : List MatDescriptor) : ℕ × List MatDescriptor :=
  _indexCol LINE_BASIC color opacity false l

/-- Embeds `MaterialManager.getWireframeIndex` (datamanager.py 236-237);
`doubleSide` takes the Python default `False`. -/
def getWireframeIndex (color : String) (opacity : ℚ)
    (l : List MatDescriptor) : ℕ × List MatDescriptor :=
  _indexCol WIREFRAME color opacity false l

end MaterialManager

/-! ## ModelManager (datamanager.py, lines 377-422) -/

/-- State of the file system as seen through `os.path.exists` and
`os.path.isfile`: a path is absent, a regular file (with contents), or
exists but is not a regular file (e.g. a directory). -/
inductive FSEntry where
  | absent
  | file (contents : String)
  | notAFile
deriving DecidableEq

namespace ModelManager

/-- State of a `ModelManager`: the `_collada` flag and the inherited
`_list` of `(model_type, path)` descriptor tuples. -/
structure State where
  collada : Bool
  list : List (String × String)
deriving DecidableEq

/-- Embeds `ModelManager.modelIndex` (datamanager.py lines 383-388):
set `_collada` when `model_type == "COLLADA"`, then `_index` on the
tuple `(model_type, path)`. -/
def modelIndex (path : String) (modelType : String) (st : State) : ℕ × State :=
  let collada := if modelType = "COLLADA" then true else st.collada
  let r := DataManager._index (modelType, path) st.list
  (r.1, ⟨collada, r.2⟩)

/-- Embeds the escaping chain of datamanager.py line 412:
`data.replace("\\", "\\\\").replace("'", "\\'").replace("\t", "\\t")`
`.replace("\r", "\\r").replace("\n", "\\n")` (apostrophes written as
`\x27`). -/
def escapeData (s : String) : String :=
  ((((s.replace "\\" "\\\\").replace "\x27" "\\\x27").replace "\t" "\\t").replace
    "\r" "\\r").replace "\n" "\\n"

/-- Scene fragment written for model `index` (datamanager.py lines
410-415): `project.models[index] = {type:'...',data:'...'};` when the
path is a regular file, and `project.models[index] = {type:'...',data:null};`
otherwise. -/
def modelLine (fs : String → FSEntry) (index : ℕ) (modelType path : String) :
    String :=
  match fs path with
  | FSEntry.file c =>
      "project.models[" ++ toString index ++ "] = \x7btype:\x27" ++ modelType ++
        "\x27,data:\x27" ++ escapeData c ++ "\x27\x7d;\n"
  | _ =>
      "project.models[" ++ toString index ++ "] = \x7btype:\x27" ++ modelType ++
        "\x27,data:null\x7d;\n"

/-- Log message emitted for model entries whose path is not a regular
file (datamanager.py lines 417-421): `"{err_msg}: {path} ({model_type})"`
where `err_msg` distinguishes an existing non-file path from a missing
path. -/
def errMessage (fs : String → FSEntry) (modelType path : String) : Option String :=
  match fs path with
  | FSEntry.file _ => none
  | FSEntry.notAFile => some ("Not 3D model file path: " ++ path ++ " (" ++ modelType ++ ")")
  | FSEntry.absent => some ("3D model file not found: " ++ path ++ " (" ++ modelType ++ ")")

/-- Embeds `ModelManager.write` (datamanager.py lines 402-421) against a
file-system state `fs`.  The first component collects everything written
to `f` (the header comment, then one line per entry, in order); the
second collects the `logMessage` calls.  The Python loop never raises:
it writes a fragment for every entry. -/
def write (st : State) (fs : String → FSEntry) : List String × List String :=
  if st.list = [] then ([], [])
  else
    ("\n// 3D model data\n" ::
       st.list.enum.map (fun p => modelLine fs p.1 p.2.1 p.2.2),
     st.list.enum.filterMap (fun p => errMessage fs p.2.1 p.2.2))

end ModelManager

/-! ## MapTo3D (qgis2threejscore.py, lines 33-58) -/

/-- Embeds the state of a constructed `MapTo3D` object
(qgis2threejscore.py lines 35-49). -/
structure MapTo3D where
  rotation : ℚ × ℚ
  mapExtent : RRect
  planeWidth : ℚ
  planeHeight : ℚ
  verticalExaggeration : ℚ
  verticalShift : ℚ
  multiplier : ℚ
  multiplierZ : ℚ
deriving DecidableEq

/-- Embeds `MapTo3D.__init__` (qgis2threejscore.py lines 35-49).  The map
extent stands for `RotatedRect.fromMapSettings(mapSettings)` and
`canvasW/canvasH` for `mapSettings.outputSize()`.  Python divisions raise
`ZeroDivisionError`; the two divisions of the constructor are checked in
evaluation order (`planeHeight = planeWidth * h / w` first, then
`multiplier = planeWidth / mapExtent.width()`). -/
def MapTo3D.init (mapExtent : RRect) (canvasW canvasH : ℚ)
    (planeWidth verticalExaggeration verticalShift : ℚ) :
    Except String MapTo3D :=
  if canvasW = 0 then Except.error "ZeroDivisionError"
  else if mapExtent.w = 0 then Except.error "ZeroDivisionError"
  else
    Except.ok
      { rotation := mapExtent.rotationPair
        mapExtent := mapExtent
        planeWidth := planeWidth
        planeHeight := planeWidth * canvasH / canvasW
        verticalExaggeration := verticalExaggeration
        verticalShift := verticalShift
        multiplier := planeWidth / mapExtent.w
        multiplierZ := planeWidth / mapExtent.w * verticalExaggeration }

/-- Embeds `MapTo3D.transform` (qgis2threejscore.py lines 51-55). -/
def MapTo3D.transform (m : MapTo3D) (x y z : ℚ) : ℚ × ℚ × ℚ :=
  let n := m.mapExtent.normalizePoint x y
  ((n.1 - 1/2) * m.planeWidth,
   (n.2 - 1/2) * m.planeHeight,
   (z + m.verticalShift) * m.multiplierZ)

/-! ## FlatDEMProvider (qgis2threejscore.py, lines 95-107) -/

namespace FlatDEMProvider

/-- Embeds `FlatDEMProvider.read` (qgis2threejscore.py lines 103-104):
`[self.value] * width * height`, i.e. the width-fold repetition of the
value, repeated height times. -/
def read (value : ℚ) (width height : ℕ) : List ℚ :=
  (List.replicate height (List.replicate width value)).flatten

/-- Embeds `FlatDEMProvider.readValue` (qgis2threejscore.py lines 106-107). -/
def readValue (value : ℚ) (_x _y : ℚ) : ℚ := value

end FlatDEMProvider

/-! ## calculateDEMSize (qgis2threejscore.py, lines 110-124)

The Python function computes `s = (size*size/(width*height)) ** 0.5` and,
when `s < 1`, replaces each dimension `d` by `int(d * s)`.  Over exact
arithmetic `s < 1` is `size^2 < width*height`, and
`int(d * s) = ⌊ sqrt(d^2·size^2/(width·height)) ⌋
           = Nat.sqrt (d^2·size^2·(width·height)) / (width·height)`
(floor of the real square root, then the floor-division identity
`⌊x/n⌋ = ⌊⌊x⌋/n⌋`); the lemma `scaledDim_eq_real_floor` below proves this
embedding correct against the real-number formula.  The roughening step
`int(d / roughening + 0.9) * roughening` is
`((10·d + 9·r) / (10·r)) · r` over exact arithmetic (floor division);
the lemma `roughen_eq_rat_floor` below proves this embedding correct. -/

/-- Embeds `int(d * s)` with `s = sqrt(size^2/(w*h))` from
qgis2threejscore.py lines 113-116, over exact arithmetic. -/
def scaledDim (size w h d : ℕ) : ℕ :=
  Nat.sqrt (d ^ 2 * size ^ 2 * (w * h)) / (w * h)

/-- Dimension after the optional downscale step (qgis2threejscore.py
lines 113-116): scaled when `s < 1`, i.e. `size^2 < w*h`, unchanged
otherwise. -/
def demScaledDim (size w h d : ℕ) : ℕ :=
  if size ^ 2 < w * h then scaledDim size w h d else d

/-- Embeds the roughening step (qgis2threejscore.py lines 118-122):
when `roughening` is nonzero (Python truthiness) and the dimension is not
a multiple of it, `d` becomes `int(d / roughening + 0.9) * roughening`. -/
def roughen (roughening d : ℕ) : ℕ :=
  if roughening ≠ 0 ∧ d % roughening ≠ 0 then
    (10 * d + 9 * roughening) / (10 * roughening) * roughening
  else d

/-- Embeds `calculateDEMSize` (qgis2threejscore.py lines 110-124).
Returns `none` for a zero-area canvas (Python raises
`ZeroDivisionError` in `size*size/(width*height)`); otherwise the pair
(width, height) of the returned `QSize`. -/
def calculateDEMSize (canvasW canvasH sizeLevel roughening : ℕ) :
    Option (ℕ × ℕ) :=
  if canvasW * canvasH = 0 then none
  else
    some (roughen roughening (demScaledDim (100 * sizeLevel) canvasW canvasH canvasW) + 1,
          roughen roughening (demScaledDim (100 * sizeLevel) canvasW canvasH canvasH) + 1)

/-! ## Map layers and `ImageManager.renderedImage` (datamanager.py, lines 93-148)

The shared `QgsMapSettings` object is modelled by the fields that
`renderedImage` reads and writes: output size, extent, rotation, layer
set and background color.  A map layer is modelled by its id plus an
opaque payload so that restoring "the same layer objects" is observable.
The rendering job itself only reads the settings. -/

structure Layer where
  id : String
  payload : ℕ
deriving DecidableEq

structure MapSettingsState where
  outputSize : ℕ × ℕ
  extent : Rect
  rotation : ℚ × ℚ
  layers : List Layer
  backgroundColor : ℕ
deriving DecidableEq

/-- Embeds `settings.layerIds()`: the ids of the current layer set. -/
def MapSettingsState.layerIds (s : MapSettingsState) : List String :=
  s.layers.map Layer.id

/-- Modelled from the spec: `tools.getLayersByLayerIds`
(qgis2threejstools.py is not among the provided sources) resolves a list
of layer ids to the corresponding layers of the project's layer
registry, dropping ids that no longer resolve. -/
def getLayersByLayerIds (registry : String → Option Layer) (ids : List String) :
    List Layer :=
  ids.filterMap registry

/-- Stand-in for `QColor(Qt.transparent)`. -/
def TRANSPARENT_COLOR : ℕ := 0

namespace ImageManager

/-- Embeds `ImageManager.renderedImage` (datamanager.py lines 93-148) as
a transformer of the shared map settings state.  It stores the old
output size / extent / rotation / layer ids / background color, installs
the requested ones (the layer set only when `layerids` is truthy, the
transparent background only when `transp_background` is set), renders,
and restores the stored values (the layer set through
`tools.getLayersByLayerIds(old_layerids)`).  The result is the final
settings state paired with the size of the produced image. -/
def renderedImage (registry : String → Option Layer) (s : MapSettingsState)
    (width height : ℕ) (extent : RRect) (transpBackground : Bool)
    (layerids : Option (List String)) : MapSettingsState × (ℕ × ℕ) :=
  let oldOutputSize := s.outputSize
  let oldExtent := s.extent
  let oldRotation := s.rotation
  let oldLayerids := s.layerIds
  let oldBackgroundColor := s.backgroundColor
  let s1 := { s with
    outputSize := (width, height)
    extent := extent.unrotatedRect
    rotation := extent.rotationPair }
  let s2 := match layerids with
    | some ids => if ids ≠ [] then { s1 with layers := getLayersByLayerIds registry ids } else s1
    | none => s1
  let s3 := if transpBackground then { s2 with backgroundColor := TRANSPARENT_COLOR } else s2
  let s4 := { s3 with
    outputSize := oldOutputSize
    extent := oldExtent
    rotation := oldRotation
    layers := getLayersByLayerIds registry oldLayerids
    backgroundColor := oldBackgroundColor }
  (s4, (width, height))

end ImageManager

/-! ## Settings save/load (qgis2threejsdialog.py, lines 175-215)

`saveSettings` writes the settings mapping with
`json.dump(self.settings(True), f, ensure_ascii=False, indent=2,
sort_keys=True)` into a file opened with `encoding="UTF-8"`, and
`loadSettings` reads it back with `json.load(f)`.

Modelled from the spec: the `json` module and the shape of the settings
mapping are outside the provided sources.  Per spec §6 the settings file
is a JSON document whose "top-level keys include plugin version,
selected template name, output filename, and per-category layer-property
mappings keyed by internal category identifiers and layer identifiers".
The mapping is modelled as a three-level association structure (top keys
to scalars or per-category maps; category maps keyed by layer id; layer
property maps of scalars).  `json.dump(..., sort_keys=True)` is modelled
by recursively sorting every association level by key, and `json.load`
by recovering exactly that key-sorted mapping from the file. -/

/-- Scalar JSON values appearing in the settings mapping. -/
inductive Prim where
  | str (s : String)
  | num (q : ℚ)
  | bool (b : Bool)
deriving DecidableEq

/-- Property mapping of one layer: property name to scalar value. -/
abbrev PropsMap := List (String × Prim)

/-- Per-category mapping: layer id to that layer's property mapping. -/
abbrev LayersMap := List (String × PropsMap)

/-- Value under a top-level settings key: a scalar (plugin version,
template name, output filename) or a per-category layer mapping. -/
inductive TopValue where
  | prim (p : Prim)
  | layers (m : LayersMap)
deriving DecidableEq

/-- The dialog's settings mapping (`self._settings`). -/
abbrev Settings := List (String × TopValue)

/-- Insert a key/value pair into a key-sorted association list, keeping
it sorted by key. -/
def insertByKey {β : Type} (p : String × β) : List (String × β) → List (String × β)
  | [] => [p]
  | q :: rest => if p.1 ≤ q.1 then p :: q :: rest else q :: insertByKey p rest

/-- Sort an association list by key (insertion sort). -/
def sortByKey {β : Type} (l : List (String × β)) : List (String × β) :=
  l.foldr insertByKey []

/-- Sort the inner levels of a top-level settings value. -/
def sortTopValue : TopValue → TopValue
  | TopValue.prim p => TopValue.prim p
  | TopValue.layers m => TopValue.layers (sortByKey (m.map (fun lv => (lv.1, sortByKey lv.2))))

/-- Key-sorted form of a settings mapping, at every level — the content
of the document produced by `json.dump(..., sort_keys=True)`. -/
def dumpSettings (s : Settings) : Settings :=
  sortByKey (s.map (fun kv => (kv.1, sortTopValue kv.2)))

/-- The settings file written by `saveSettings`
(qgis2threejsdialog.py lines 210-213): opened with `encoding="UTF-8"`,
serialized with `indent=2` (pretty-printed) and `sort_keys=True`. -/
structure SettingsFile where
  encoding : String
  indent : ℕ
  sortKeys : Bool
  content : Settings
deriving DecidableEq

/-- Embeds the serialization performed by `saveSettings`
(qgis2threejsdialog.py lines 210-213). -/
def saveSettingsFile (s : Settings) : SettingsFile :=
  ⟨"UTF-8", 2, true, dumpSettings s⟩

/-- Embeds the deserialization performed by `loadSettings`
(qgis2threejsdialog.py lines 187-192): `json.load` recovers the mapping
stored in the document. -/
def loadSettingsFile (f : SettingsFile) : Settings :=
  f.content

/-- Keys of an association list are pairwise distinct. -/
def NodupKeys {β : Type} (l : List (String × β)) : Prop :=
  (l.map Prod.fst).Nodup

instance {β : Type} (l : List (String × β)) : Decidable (NodupKeys l) := by
  unfold NodupKeys; infer_instance

/-- Well-formedness of a top-level settings value: inner association
levels have no duplicate keys (Python dicts). -/
def wfTopValue : TopValue → Prop
  | TopValue.prim _ => True
  | TopValue.layers m => NodupKeys m ∧ ∀ lv ∈ m, NodupKeys lv.2

instance : DecidablePred wfTopValue := fun t => by
  cases t with
  | prim p => exact Decidable.isTrue trivial
  | layers m => unfold wfTopValue; infer_instance

/-- Well-formedness of a settings mapping: no duplicate keys at any
level (Python dicts). -/
def wfSettings (s : Settings) : Prop :=
  NodupKeys s ∧ ∀ kv ∈ s, wfTopValue kv.2

instance (s : Settings) : Decidable (wfSettings s) := by
  unfold wfSettings; infer_instance

/-- Two property maps hold the same keys and values. -/
def propsEquiv (a b : PropsMap) : Prop :=
  ∀ k : String, a.lookup k = b.lookup k

/-- Two per-category maps hold the same keys, and equivalent property
maps at every key. -/
def layersEquiv (a b : LayersMap) : Prop :=
  ∀ k : String,
    match a.lookup k, b.lookup k with
    | some x, some y => propsEquiv x y
    | none, none => True
    | _, _ => False

/-- Equivalence of top-level settings values. -/
def topValueEquiv : TopValue → TopValue → Prop
  | TopValue.prim p, TopValue.prim q => p = q
  | TopValue.layers a, TopValue.layers b => layersEquiv a b
  | _, _ => False

/-- Two settings mappings hold the same keys, and equivalent values at
every key. -/
def settingsEquiv (a b : Settings) : Prop :=
  ∀ k : String,
    match a.lookup k, b.lookup k with
    | some x, some y => topValueEquiv x y
    | none, none => True
    | _, _ => False

/-- Keys of an association list are sorted in (weakly) increasing
order. -/
def KeysSorted {β : Type} (l : List (String × β)) : Prop :=
  (l.map Prod.fst).Sorted (· ≤ ·)

/-- The serialized mapping has its keys sorted at every level. -/
def settingsKeysSorted (s : Settings) : Prop :=
  KeysSorted s ∧ ∀ kv ∈ s,
    match kv.2 with
    | TopValue.prim _ => True
    | TopValue.layers m => KeysSorted m ∧ ∀ lv ∈ m, KeysSorted lv.2

/-! ## Theorems -/

/-- Position of the first occurrence: Python `list.index` on a list in
which `d` first occurs right after a `d`-free block `l`. -/
theorem indexOf_append_first {α : Type} [DecidableEq α] {l : List α}
    (r : List α) (d : α) (hd : d ∉ l) :
    (l ++ d :: r).indexOf d = l.length := by
  induction l with
  | nil => simp
  | cons a t ih =>
    have hne : d ≠ a := fun h => hd (h ▸ List.mem_cons_self a t)
    have ht : d ∉ t := fun h => hd (List.mem_cons_of_mem a h)
    simp only [List.cons_append, List.indexOf_cons_ne _ hne.symm, ih ht,
      List.length_cons, Nat.succ_eq_add_one]

/-- C1: for every manager in the `DataManager` family, `_index` is a
function of the descriptor's structural equality class; the first
insertion of a new descriptor appends it, increases the entry count by
exactly one and returns the previous count; and every later call with
an equal descriptor (after arbitrary further appends `rest`) leaves the
list unchanged and returns the originally assigned index. -/
theorem dataManager_index_dedup {α : Type} [DecidableEq α]
    (l rest : List α) (d : α) (hd : d ∉ l) :
    (∀ d1 d2 : α, d1 = d2 → ∀ st : List α,
        DataManager._index d1 st = DataManager._index d2 st)
  ∧ (DataManager._index d l).1 = DataManager.count l
  ∧ (DataManager._index d l).2 = l ++ [d]
  ∧ DataManager.count (DataManager._index d l).2 = DataManager.count l + 1
  ∧ (DataManager._index d (l ++ d :: rest)).1 = DataManager.count l
  ∧ (DataManager._index d (l ++ d :: rest)).2 = l ++ d :: rest := by
  have hmem : d ∈ l ++ d :: rest := by simp
  refine ⟨fun d1 d2 h st => by rw [h], ?_, ?_, ?_, ?_, ?_⟩
  · simp [DataManager._index, hd, DataManager.count]
  · simp [DataManager._index, hd]
  · simp [DataManager._index, hd, DataManager.count]
  · simp [DataManager._index, hmem, indexOf_append_first rest d hd, DataManager.count]
  · simp [DataManager._index, hmem]

/-- Witness for C1 at concrete image descriptors: a second lookup of an
already-inserted descriptor returns its original index. -/
theorem dataManager_index_dedup_witness :
    (DataManager._index (ImageManager.ImgDescriptor.imageFile "tex.png")
        ([ImageManager.ImgDescriptor.canvasImage false] ++
          ImageManager.ImgDescriptor.imageFile "tex.png" ::
            [ImageManager.ImgDescriptor.canvasImage true])).1 =
      DataManager.count [ImageManager.ImgDescriptor.canvasImage false] :=
  (dataManager_index_dedup [ImageManager.ImgDescriptor.canvasImage false]
    [ImageManager.ImgDescriptor.canvasImage true]
    (ImageManager.ImgDescriptor.imageFile "tex.png") (by decide)).2.2.2.2.1

/-- C8: every color-based `MaterialManager` index method replaces a
color string that does not begin with `"0x"` by the fallback
`ERROR_COLOR = "0"` before the descriptor tuple is formed, so two
invalid color strings with the same material type, opacity and
double-sided flag resolve to the same material index. -/
theorem materialManager_invalid_color_fallback (c1 c2 : String) (opacity : ℚ)
    (doubleSide : Bool) (st : List MaterialManager.MatDescriptor)
    (h1 : c1.data.take 2 ≠ "0x".data) (h2 : c2.data.take 2 ≠ "0x".data) :
    (∀ ty : ℕ, MaterialManager._indexCol ty c1 opacity doubleSide st =
        DataManager._index
          (MaterialManager.MatDescriptor.colorMat ty MaterialManager.ERROR_COLOR
            opacity doubleSide) st)
  ∧ MaterialManager.getMeshLambertIndex c1 opacity doubleSide st =
      MaterialManager.getMeshLambertIndex c2 opacity doubleSide st
  ∧ MaterialManager.getSmoothMeshLambertIndex c1 opacity doubleSide st =
      MaterialManager.getSmoothMeshLambertIndex c2 opacity doubleSide st
  ∧ MaterialManager.getFlatMeshLambertIndex c1 opacity doubleSide st =
      MaterialManager.getFlatMeshLambertIndex c2 opacity doubleSide st
  ∧ MaterialManager.getLineBasicIndex c1 opacity st =
      MaterialManager.getLineBasicIndex c2 opacity st
  ∧ MaterialManager.getWireframeIndex c1 opacity st =
      MaterialManager.getWireframeIndex c2 opacity st := by
  refine ⟨fun ty => ?_, ?_, ?_, ?_, ?_, ?_⟩ <;>
    simp [MaterialManager._indexCol, MaterialManager.getMeshLambertIndex,
      MaterialManager.getSmoothMeshLambertIndex,
      MaterialManager.getFlatMeshLambertIndex,
      MaterialManager.getLineBasicIndex, MaterialManager.getWireframeIndex,
      h1, h2]

/-- Witness for C8: two distinct invalid colors get the same mesh
Lambert material index. -/
theorem materialManager_invalid_color_fallback_witness :
    MaterialManager.getMeshLambertIndex "red" 1 false [] =
      MaterialManager.getMeshLambertIndex "blue" 1 false [] :=
  (materialManager_invalid_color_fallback "red" "blue" 1 false []
    (by decide) (by decide)).2.1

/-- Helper: `[value] * width * height` is `width * height` copies of the
value. -/
theorem flatRead_eq_replicate (v : ℚ) (w h : ℕ) :
    FlatDEMProvider.read v w h = List.replicate (w * h) v := by
  induction h with
  | zero => simp [FlatDEMProvider.read]
  | succ n ih =>
    have : w * (n + 1) = w + w * n := by ring
    simp only [FlatDEMProvider.read, List.replicate_succ, List.flatten_cons] at *
    rw [ih, this, List.replicate_add]

/-- C9: `FlatDEMProvider(v).read(w, h, extent)` returns exactly `w·h`
samples, all equal to `v`; `readValue` returns `v` everywhere; and for
the flat value 10 combined with a `MapTo3D` of vertical exaggeration 2
and shift 1, every sample passed through the z mapping of `transform`
yields `(10 + 1) * multiplierZ`. -/
theorem flatDEMProvider_constant (v : ℚ) (w h : ℕ) (x y : ℚ) (e : RRect)
    (cw ch pw : ℚ) (m : MapTo3D)
    (hm : MapTo3D.init e cw ch pw 2 1 = Except.ok m) :
    (FlatDEMProvider.read v w h).length = w * h
  ∧ (∀ s ∈ FlatDEMProvider.read v w h, s = v)
  ∧ FlatDEMProvider.readValue v x y = v
  ∧ ∀ s ∈ FlatDEMProvider.read 10 w h, ∀ px py : ℚ,
      (m.transform px py s).2.2 = (10 + 1) * m.multiplierZ := by
  have hshift : m.verticalShift = 1 := by
    unfold MapTo3D.init at hm
    split at hm
    · exact absurd hm (by simp)
    split at hm
    · exact absurd hm (by simp)
    · have := Except.ok.inj hm
      rw [← this]
  refine ⟨?_, ?_, rfl, ?_⟩
  · rw [flatRead_eq_replicate]; simp
  · intro s hs
    rw [flatRead_eq_replicate] at hs
    exact List.eq_of_mem_replicate hs
  · intro s hs px py
    rw [flatRead_eq_replicate] at hs
    have hs10 : s = 10 := List.eq_of_mem_replicate hs
    simp [MapTo3D.transform, hs10, hshift]

/-- Justification of the `scaledDim` embedding: over the real numbers,
`int(d * s)` with `s = sqrt(size^2/(w*h))` (qgis2threejscore.py line
113, values nonnegative, so `int` is the floor) is exactly
`Nat.sqrt (d^2·size^2·(w·h)) / (w·h)`. -/
theorem scaledDim_eq_real_floor (size w h d : ℕ) (hwh : 0 < w * h) :
    scaledDim size w h d =
      ⌊(d : ℝ) * Real.sqrt ((size : ℝ) ^ 2 / ((w : ℝ) * h)) ⌋₊ := by
  have hW : (0 : ℝ) < (w : ℝ) * h := by exact_mod_cast hwh
  have hWne : ((w : ℝ) * h) ≠ 0 := ne_of_gt hW
  have l1 : (d : ℝ) * Real.sqrt ((size : ℝ) ^ 2 / ((w : ℝ) * h)) =
      Real.sqrt ((d : ℝ) ^ 2 * ((size : ℝ) ^ 2 / ((w : ℝ) * h))) := by
    rw [Real.sqrt_mul (by positivity), Real.sqrt_sq (by positivity)]
  have l2 : Real.sqrt (((d ^ 2 * size ^ 2 * (w * h) : ℕ) : ℝ) / ((w : ℝ) * h) ^ 2) =
      Real.sqrt (((d ^ 2 * size ^ 2 * (w * h) : ℕ) : ℝ)) / ((w : ℝ) * h) := by
    rw [Real.sqrt_div (by positivity), Real.sqrt_sq (le_of_lt hW)]
  have key : (d : ℝ) * Real.sqrt ((size : ℝ) ^ 2 / ((w : ℝ) * h)) =
      Real.sqrt (((d ^ 2 * size ^ 2 * (w * h) : ℕ) : ℝ)) / ((w : ℝ) * h) := by
    rw [l1, ← l2]
    congr 1
    push_cast
    field_simp
    ring
  have hcast : ((w * h : ℕ) : ℝ) = (w : ℝ) * h := by push_cast; ring
  calc scaledDim size w h d
      = Nat.sqrt (d ^ 2 * size ^ 2 * (w * h)) / (w * h) := rfl
    _ = ⌊Real.sqrt (((d ^ 2 * size ^ 2 * (w * h) : ℕ) : ℝ))⌋₊ / (w * h) := by
        rw [Real.nat_floor_real_sqrt_eq_nat_sqrt]
    _ = ⌊Real.sqrt (((d ^ 2 * size ^ 2 * (w * h) : ℕ) : ℝ)) / ((w * h : ℕ) : ℝ)⌋₊ := by
        rw [Nat.floor_div_nat]
    _ = ⌊(d : ℝ) * Real.sqrt ((size : ℝ) ^ 2 / ((w : ℝ) * h)) ⌋₊ := by
        rw [hcast, ← key]

/-- Justification of the `roughen` embedding: over the rationals,
`int(d / roughening + 0.9)` (qgis2threejscore.py lines 120 and 122,
values nonnegative, so `int` is the floor) is exactly
`(10·d + 9·r) / (10·r)`. -/
theorem roughen_eq_rat_floor (r d : ℕ) (hr : 0 < r) (hnd : d % r ≠ 0) :
    roughen r d = ⌊(d : ℚ) / r + 9 / 10⌋₊ * r := by
  have hrne : ((r : ℚ)) ≠ 0 := by exact_mod_cast hr.ne'
  have hq : (d : ℚ) / r + 9 / 10 = ((10 * d + 9 * r : ℕ) : ℚ) / ((10 * r : ℕ) : ℚ) := by
    push_cast
    field_simp
    ring
  rw [hq, Nat.floor_div_nat, Nat.floor_natCast]
  unfold roughen
  rw [if_pos ⟨hr.ne', hnd⟩]

/-- Helper: the scaled dimension never exceeds the original dimension
whenever the downscale branch is taken (`size^2 < w*h`). -/
theorem scaledDim_le (size w h d : ℕ) (hwh : 0 < w * h) (hlt : size ^ 2 < w * h) :
    scaledDim size w h d ≤ d := by
  have hsq : Nat.sqrt (d ^ 2 * size ^ 2 * (w * h)) < (d + 1) * (w * h) := by
    rw [Nat.sqrt_lt]
    rcases Nat.eq_zero_or_pos d with rfl | hd
    · simpa using Nat.mul_pos hwh hwh
    · have hd2 : 0 < d ^ 2 := Nat.pos_pow_of_pos 2 hd
      have h2 : d ^ 2 * size ^ 2 * (w * h) < d ^ 2 * ((w * h) * (w * h)) := by
        calc d ^ 2 * size ^ 2 * (w * h) = d ^ 2 * (size ^ 2 * (w * h)) := by ring
          _ < d ^ 2 * ((w * h) * (w * h)) :=
              mul_lt_mul_of_pos_left (mul_lt_mul_of_pos_right hlt hwh) hd2
      calc d ^ 2 * size ^ 2 * (w * h) < d ^ 2 * ((w * h) * (w * h)) := h2
        _ ≤ (d + 1) ^ 2 * ((w * h) * (w * h)) :=
            Nat.mul_le_mul_right _ (Nat.pow_le_pow_left (Nat.le_succ d) 2)
        _ = (d + 1) * (w * h) * ((d + 1) * (w * h)) := by ring
  exact Nat.lt_succ_iff.mp ((Nat.div_lt_iff_lt_mul hwh).mpr hsq)

/-- Helper: the dimension after the optional downscale step never
exceeds the canvas dimension it came from. -/
theorem demScaledDim_le (size w h d : ℕ) (hwh : 0 < w * h) :
    demScaledDim size w h d ≤ d := by
  unfold demScaledDim
  split
  · exact scaledDim_le size w h d hwh (by assumption)
  · exact le_refl d

/-- Helper: roughening with a zero divisor is the identity. -/
theorem roughen_zero (d : ℕ) : roughen 0 d = d := by
  simp [roughen]

/-- Helper: roughening adds less than the divisor. -/
theorem roughen_lt (r d : ℕ) (hr : 0 < r) : roughen r d < d + r := by
  unfold roughen
  split
  · have h1 : (10 * d + 9 * r) / (10 * r) * (10 * r) ≤ 10 * d + 9 * r :=
      Nat.div_mul_le_self _ _
    have h2 : 10 * ((10 * d + 9 * r) / (10 * r) * r) ≤ 10 * d + 9 * r := by
      calc 10 * ((10 * d + 9 * r) / (10 * r) * r)
          = (10 * d + 9 * r) / (10 * r) * (10 * r) := by ring
        _ ≤ 10 * d + 9 * r := h1
    have h3 : 10 * ((10 * d + 9 * r) / (10 * r) * r) < 10 * (d + r) := by omega
    exact Nat.lt_of_mul_lt_mul_left h3
  · omega

/-- Helper: exact value of the roughening step on a non-multiple. -/
theorem roughen_eq (r d : ℕ) (hr : r ≠ 0) (hnd : d % r ≠ 0) :
    roughen r d = (if r ≤ 10 * (d % r) then d / r + 1 else d / r) * r := by
  have hrpos : 0 < r := Nat.pos_of_ne_zero hr
  have hm : d % r < r := Nat.mod_lt _ hrpos
  have hsplit : 10 * d + 9 * r = (10 * r) * (d / r) + (10 * (d % r) + 9 * r) := by
    conv_lhs => rw [← Nat.div_add_mod d r]
    ring
  unfold roughen
  rw [if_pos ⟨hr, hnd⟩]
  congr 1
  rw [hsplit, Nat.mul_add_div (by omega)]
  split
  · have h1 : 1 * (10 * r) ≤ 10 * (d % r) + 9 * r := by omega
    have h2 : 10 * (d % r) + 9 * r < (1 + 1) * (10 * r) := by omega
    rw [Nat.div_eq_of_lt_le h1 h2]
  · rw [Nat.div_eq_of_lt (show 10 * (d % r) + 9 * r < 10 * r by omega)]
    omega

/-- Counterexample to C2 as stated: with canvas 1×1, size level 0 and no
roughening the result is `QSize(1, 1)` — a dimension below 2 after the
final +1; and with canvas 10×10, size level 100 and roughening 8 the
result is `QSize(17, 17)` — `17 - 1 = 16` upsamples beyond the canvas
dimension 10. -/
theorem calculateDEMSize_bounds_cex :
    calculateDEMSize 1 1 0 0 = some (1, 1)
  ∧ calculateDEMSize 10 10 100 8 = some (17, 17)
  ∧ calculateDEMSize 2 100000 1 0 = some (1, 22361) := by
  refine ⟨by decide, by decide, ?_⟩
  have hw : demScaledDim (100 * 1) 2 100000 2 = 0 := by
    rw [demScaledDim, if_pos (by norm_num : ((100:ℕ) * 1) ^ 2 < 2 * 100000),
      scaledDim,
      show (2:ℕ) ^ 2 * (100 * 1) ^ 2 * (2 * 100000) = 8000000000 by norm_num,
      show Nat.sqrt 8000000000 = 89442 by norm_num]
  have hh : demScaledDim (100 * 1) 2 100000 100000 = 22360 := by
    rw [demScaledDim, if_pos (by norm_num : ((100:ℕ) * 1) ^ 2 < 2 * 100000),
      scaledDim,
      show (100000:ℕ) ^ 2 * (100 * 1) ^ 2 * (2 * 100000) = 20000000000000000000 by
        norm_num,
      show Nat.sqrt 20000000000000000000 = 4472135954 by norm_num]
  rw [calculateDEMSize, if_neg (by norm_num : ¬((2:ℕ) * 100000 = 0)), hw, hh]
  decide

/-- C2 amended: for a canvas of positive dimensions,
`calculateDEMSize` returns dimensions that are each at least 1; before
the final +1 neither dimension exceeds the corresponding canvas
dimension when roughening is 0, and exceeds it by less than the
roughening divisor when roughening is nonzero. -/
theorem calculateDEMSize_bounds (w h lvl r : ℕ) (hw : 0 < w) (hh : 0 < h) :
    ∃ W H, calculateDEMSize w h lvl r = some (W, H) ∧ 1 ≤ W ∧ 1 ≤ H
  ∧ (r = 0 → W - 1 ≤ w ∧ H - 1 ≤ h)
  ∧ (0 < r → W - 1 < w + r ∧ H - 1 < h + r) := by
  have hwh : 0 < w * h := Nat.mul_pos hw hh
  have hne : ¬(w * h = 0) := Nat.pos_iff_ne_zero.mp hwh
  refine ⟨roughen r (demScaledDim (100 * lvl) w h w) + 1,
          roughen r (demScaledDim (100 * lvl) w h h) + 1, ?_, ?_, ?_, ?_, ?_⟩
  · unfold calculateDEMSize
    rw [if_neg hne]
  · omega
  · omega
  · rintro rfl
    have h1 := demScaledDim_le (100 * lvl) w h w hwh
    have h2 := demScaledDim_le (100 * lvl) w h h hwh
    rw [roughen_zero, roughen_zero]
    omega
  · intro hr
    have h1 := demScaledDim_le (100 * lvl) w h w hwh
    have h2 := demScaledDim_le (100 * lvl) w h h hwh
    have h3 := roughen_lt r (demScaledDim (100 * lvl) w h w) hr
    have h4 := roughen_lt r (demScaledDim (100 * lvl) w h h) hr
    omega

/-- Witness for C2 (amended) at canvas 10×10, size level 1, no
roughening. -/
theorem calculateDEMSize_bounds_witness :
    ∃ W H, calculateDEMSize 10 10 1 0 = some (W, H) ∧ 1 ≤ W ∧ 1 ≤ H
  ∧ (0 = 0 → W - 1 ≤ 10 ∧ H - 1 ≤ 10)
  ∧ (0 < 0 → W - 1 < 10 + 0 ∧ H - 1 < 10 + 0) :=
  calculateDEMSize_bounds 10 10 1 0 (by decide) (by decide)

/-- Counterexample to C3 as stated: canvas 105×105, size level 100,
roughening 100.  The width 105 is not a multiple of 100, yet the result
is `QSize(101, 101)`: the dimension was lowered to 100, not raised to
the next multiple of 100 strictly above 105. -/
theorem calculateDEMSize_roughening_cex :
    calculateDEMSize 105 105 100 100 = some (101, 101)
  ∧ 105 % 100 ≠ 0
  ∧ 101 - 1 < 105 := by
  refine ⟨by decide, by decide, by decide⟩

/-- C3 amended: when roughening `r` is nonzero, each possibly-downscaled
dimension `d` is left unchanged if it is a multiple of `r`; otherwise it
becomes `int(d/r + 0.9)·r`, which is the next multiple of `r` strictly
above `d` exactly when `r ≤ 10·(d mod r)`, and the multiple of `r`
strictly below `d` otherwise; the final +1 is applied afterwards. -/
theorem calculateDEMSize_roughening (r : ℕ) (hr : r ≠ 0) :
    (∀ w h lvl, 0 < w → 0 < h →
        calculateDEMSize w h lvl r =
          some (roughen r (demScaledDim (100 * lvl) w h w) + 1,
                roughen r (demScaledDim (100 * lvl) w h h) + 1))
  ∧ (∀ d, d % r = 0 → roughen r d = d)
  ∧ (∀ d, d % r ≠ 0 → r ≤ 10 * (d % r) →
        roughen r d = (d / r + 1) * r ∧ d < roughen r d ∧ roughen r d % r = 0)
  ∧ (∀ d, d % r ≠ 0 → 10 * (d % r) < r →
        roughen r d = d / r * r ∧ roughen r d < d ∧ roughen r d % r = 0) := by
  have hrpos : 0 < r := Nat.pos_of_ne_zero hr
  refine ⟨?_, ?_, ?_, ?_⟩
  · intro w h lvl hw hh
    have hne : ¬(w * h = 0) := Nat.pos_iff_ne_zero.mp (Nat.mul_pos hw hh)
    unfold calculateDEMSize
    rw [if_neg hne]
  · intro d hd
    unfold roughen
    rw [if_neg (by simp [hd])]
  · intro d hnd hcond
    have he := roughen_eq r d hr hnd
    rw [if_pos hcond] at he
    refine ⟨he, ?_, by rw [he]; exact Nat.mul_mod_left _ _⟩
    rw [he]
    have := Nat.div_add_mod d r
    have hm : d % r < r := Nat.mod_lt _ hrpos
    nlinarith [Nat.div_add_mod d r]
  · intro d hnd hcond
    have he := roughen_eq r d hr hnd
    rw [if_neg (by omega)] at he
    refine ⟨he, ?_, by rw [he]; exact Nat.mul_mod_left _ _⟩
    rw [he]
    have := Nat.div_add_mod d r
    have hm : 0 < d % r := Nat.pos_of_ne_zero hnd
    nlinarith [Nat.div_add_mod d r]

/-- Witness for C3 (amended) at roughening 100: 105 is lowered to 100
(`10·(105 mod 100) = 50 < 100`), while 195 is raised to 200
(`10·(195 mod 100) = 950 ≥ 100`). -/
theorem calculateDEMSize_roughening_witness :
    roughen 100 105 = 105 / 100 * 100 ∧ roughen 100 105 < 105 ∧
      roughen 100 105 % 100 = 0 :=
  (calculateDEMSize_roughening 100 (by decide)).2.2.2 105 (by decide) (by decide)

/-- Witness for C9 at a concrete extent and canvas. -/
theorem flatDEMProvider_constant_witness :
    (FlatDEMProvider.read 5 2 3).length = 2 * 3 := by
  have hm : MapTo3D.init ⟨0, 0, 10, 10, 1, 0⟩ 10 10 100 2 1 = Except.ok
      { rotation := RRect.rotationPair ⟨0, 0, 10, 10, 1, 0⟩
        mapExtent := ⟨0, 0, 10, 10, 1, 0⟩
        planeWidth := 100
        planeHeight := 100 * 10 / 10
        verticalExaggeration := 2
        verticalShift := 1
        multiplier := 100 / 10
        multiplierZ := 100 / 10 * 2 } := by
    unfold MapTo3D.init
    rw [if_neg (by norm_num), if_neg (by norm_num)]
  exact (flatDEMProvider_constant 5 2 3 0 0 ⟨0, 0, 10, 10, 1, 0⟩ 10 10 100 _ hm).1

/-- Helper: the x/y part of `transform` at a corner of the (possibly
rotated) extent, for an arbitrary sign pair. -/
theorem mapTo3D_transform_corner_sign (e : RRect) (cw ch pw vex vsh : ℚ)
    (m : MapTo3D) (hcw : cw ≠ 0) (hw : e.w ≠ 0) (hh : e.h ≠ 0)
    (hrot : e.rc ^ 2 + e.rs ^ 2 = 1)
    (hm : MapTo3D.init e cw ch pw vex vsh = Except.ok m) (sx sy z : ℚ) :
    (m.transform (e.corner sx sy).1 (e.corner sx sy).2 z).1 = sx * (pw / 2)
  ∧ (m.transform (e.corner sx sy).1 (e.corner sx sy).2 z).2.1 =
      sy * (pw * ch / cw / 2) := by
  unfold MapTo3D.init at hm
  rw [if_neg hcw, if_neg hw] at hm
  have hrec := Except.ok.inj hm
  subst hrec
  simp only [MapTo3D.transform, RRect.normalizePoint, RRect.corner]
  constructor
  · have hu : e.rc * (e.cx + e.rc * (sx * e.w / 2) - e.rs * (sy * e.h / 2) - e.cx) +
        e.rs * (e.cy + e.rs * (sx * e.w / 2) + e.rc * (sy * e.h / 2) - e.cy) =
        sx * e.w / 2 := by linear_combination (sx * e.w / 2) * hrot
    rw [hu]
    field_simp
    ring
  · have hv : -e.rs * (e.cx + e.rc * (sx * e.w / 2) - e.rs * (sy * e.h / 2) - e.cx) +
        e.rc * (e.cy + e.rs * (sx * e.w / 2) + e.rc * (sy * e.h / 2) - e.cy) =
        sy * e.h / 2 := by linear_combination (sy * e.h / 2) * hrot
    rw [hv]
    field_simp
    ring

/-- C4: for every extent of nonzero width and height, every rotation
(given by a unit cosine/sine pair) and every plane width, `transform`
maps each of the four corners of the source extent to the corresponding
corner of a `planeWidth × planeHeight` rectangle centered at the origin
of the scene's x-y plane, with
`planeHeight = planeWidth · canvasHeight / canvasWidth`. -/
theorem mapTo3D_transform_corners (e : RRect) (cw ch pw vex vsh : ℚ)
    (m : MapTo3D) (hcw : cw ≠ 0) (hw : e.w ≠ 0) (hh : e.h ≠ 0)
    (hrot : e.rc ^ 2 + e.rs ^ 2 = 1)
    (hm : MapTo3D.init e cw ch pw vex vsh = Except.ok m) (z : ℚ) :
    m.planeHeight = pw * ch / cw
  ∧ ∀ sx sy : ℚ, (sx = 1 ∨ sx = -1) → (sy = 1 ∨ sy = -1) →
      (m.transform (e.corner sx sy).1 (e.corner sx sy).2 z).1 = sx * (pw / 2)
    ∧ (m.transform (e.corner sx sy).1 (e.corner sx sy).2 z).2.1 =
        sy * (m.planeHeight / 2) := by
  have hph : m.planeHeight = pw * ch / cw := by
    unfold MapTo3D.init at hm
    rw [if_neg hcw, if_neg hw] at hm
    have hrec := Except.ok.inj hm
    rw [← hrec]
  refine ⟨hph, fun sx sy _ _ => ?_⟩
  rw [hph]
  exact mapTo3D_transform_corner_sign e cw ch pw vex vsh m hcw hw hh hrot hm sx sy z

/-- Witness for C4 at a concrete rotated extent (`cos = 3/5`,
`sin = 4/5`), canvas 8×6, plane width 100: the corner with signs
`(1, -1)` lands on `(50, -75/2)`. -/
theorem mapTo3D_transform_corners_witness :
    (MapTo3D.transform
        { rotation := RRect.rotationPair ⟨0, 0, 4, 2, 3/5, 4/5⟩
          mapExtent := ⟨0, 0, 4, 2, 3/5, 4/5⟩
          planeWidth := 100
          planeHeight := 100 * 6 / 8
          verticalExaggeration := 1
          verticalShift := 0
          multiplier := 100 / 4
          multiplierZ := 100 / 4 * 1 }
        ((⟨0, 0, 4, 2, 3/5, 4/5⟩ : RRect).corner 1 (-1)).1
        ((⟨0, 0, 4, 2, 3/5, 4/5⟩ : RRect).corner 1 (-1)).2 0).1 = 1 * (100 / 2) := by
  have hm : MapTo3D.init ⟨0, 0, 4, 2, 3/5, 4/5⟩ 8 6 100 1 0 = Except.ok
      { rotation := RRect.rotationPair ⟨0, 0, 4, 2, 3/5, 4/5⟩
        mapExtent := ⟨0, 0, 4, 2, 3/5, 4/5⟩
        planeWidth := 100
        planeHeight := 100 * 6 / 8
        verticalExaggeration := 1
        verticalShift := 0
        multiplier := 100 / 4
        multiplierZ := 100 / 4 * 1 } := by
    unfold MapTo3D.init
    rw [if_neg (by norm_num), if_neg (by norm_num)]
  exact ((mapTo3D_transform_corners ⟨0, 0, 4, 2, 3/5, 4/5⟩ 8 6 100 1 0 _
    (by norm_num) (by norm_num) (by norm_num) (by norm_num) hm 0).2 1 (-1)
    (Or.inl rfl) (Or.inr rfl)).1

/-- Counterexample to C6 as stated: an extent of width 1 and height 0 has
zero area, yet `MapTo3D` construction succeeds (no division uses the
extent height), so construction does not fail fast on every zero-area
extent. -/
theorem mapTo3D_init_zero_area_cex :
    (⟨0, 0, 1, 0, 1, 0⟩ : RRect).w * (⟨0, 0, 1, 0, 1, 0⟩ : RRect).h = 0
  ∧ MapTo3D.init ⟨0, 0, 1, 0, 1, 0⟩ 100 100 100 1 0 = Except.ok
      { rotation := RRect.rotationPair ⟨0, 0, 1, 0, 1, 0⟩
        mapExtent := ⟨0, 0, 1, 0, 1, 0⟩
        planeWidth := 100
        planeHeight := 100 * 100 / 100
        verticalExaggeration := 1
        verticalShift := 0
        multiplier := 100 / 1
        multiplierZ := 100 / 1 * 1 } := by
  constructor
  · norm_num
  · unfold MapTo3D.init
    rw [if_neg (by norm_num), if_neg (by norm_num)]

/-- C6 amended: `MapTo3D` construction fails fast with a defined
division-by-zero error exactly when the canvas width or the extent width
is zero; for every extent of nonzero width (in particular every extent
of nonzero area) and canvas of nonzero width, construction succeeds and
produces the finite rational multipliers `planeWidth / extentWidth` and
`planeWidth / extentWidth · verticalExaggeration`. -/
theorem mapTo3D_init_division_check (e : RRect) (cw ch pw vex vsh : ℚ) :
    (cw = 0 ∨ e.w = 0 →
      MapTo3D.init e cw ch pw vex vsh = Except.error "ZeroDivisionError")
  ∧ (cw ≠ 0 → e.w ≠ 0 →
      MapTo3D.init e cw ch pw vex vsh = Except.ok
        { rotation := e.rotationPair
          mapExtent := e
          planeWidth := pw
          planeHeight := pw * ch / cw
          verticalExaggeration := vex
          verticalShift := vsh
          multiplier := pw / e.w
          multiplierZ := pw / e.w * vex }) := by
  constructor
  · rintro (hz | hz) <;> unfold MapTo3D.init
    · rw [if_pos hz]
    · by_cases hcw : cw = 0
      · rw [if_pos hcw]
      · rw [if_neg hcw, if_pos hz]
  · intro h1 h2
    unfold MapTo3D.init
    rw [if_neg h1, if_neg h2]

/-- Witness for C6 (amended): construction succeeds on a 5×5 extent with
a 10×10 canvas. -/
theorem mapTo3D_init_division_check_witness :
    MapTo3D.init ⟨0, 0, 5, 5, 1, 0⟩ 10 10 100 1 0 = Except.ok
      { rotation := (⟨0, 0, 5, 5, 1, 0⟩ : RRect).rotationPair
        mapExtent := ⟨0, 0, 5, 5, 1, 0⟩
        planeWidth := 100
        planeHeight := 100 * 10 / 10
        verticalExaggeration := 1
        verticalShift := 0
        multiplier := 100 / (⟨0, 0, 5, 5, 1, 0⟩ : RRect).w
        multiplierZ := 100 / (⟨0, 0, 5, 5, 1, 0⟩ : RRect).w * 1 } :=
  (mapTo3D_init_division_check ⟨0, 0, 5, 5, 1, 0⟩ 10 10 100 1 0).2
    (by norm_num) (by norm_num)

/-- C7: `ModelManager.write` never aborts — it writes the header plus
exactly one scene fragment per entry — and for every entry whose path is
missing or not a regular file it writes the fragment with a null data
payload at that entry's index and logs the corresponding error message. -/
theorem modelManager_write_missing (st : ModelManager.State)
    (fs : String → FSEntry) (hne : st.list ≠ []) :
    (ModelManager.write st fs).1.length = st.list.length + 1
  ∧ (ModelManager.write st fs).1[0]? = some "\n// 3D model data\n"
  ∧ ∀ i mt path, st.list[i]? = some (mt, path) →
      (∀ c, fs path ≠ FSEntry.file c) →
      (ModelManager.write st fs).1[i + 1]? =
        some ("project.models[" ++ toString i ++ "] = \x7btype:\x27" ++ mt ++
          "\x27,data:null\x7d;\n")
    ∧ ∃ msg, ModelManager.errMessage fs mt path = some msg ∧
        msg ∈ (ModelManager.write st fs).2 := by
  unfold ModelManager.write
  rw [if_neg hne]
  refine ⟨by simp, by simp, fun i mt path hi hnf => ⟨?_, ?_⟩⟩
  · rw [List.getElem?_cons_succ, List.getElem?_map, List.getElem?_enum, hi]
    simp only [Option.map_some']
    unfold ModelManager.modelLine
    cases hfs : fs path with
    | file c => exact absurd hfs (hnf c)
    | absent => rfl
    | notAFile => rfl
  · have hmsg : ∃ msg, ModelManager.errMessage fs mt path = some msg := by
      unfold ModelManager.errMessage
      cases hfs : fs path with
      | file c => exact absurd hfs (hnf c)
      | absent => exact ⟨_, rfl⟩
      | notAFile => exact ⟨_, rfl⟩
    obtain ⟨msg, hmsg⟩ := hmsg
    refine ⟨msg, hmsg, ?_⟩
    rw [List.mem_filterMap]
    exact ⟨(i, (mt, path)), List.mem_enum_iff_getElem?.mpr hi, hmsg⟩

/-- Witness for C7: a single missing model file produces the null
fragment and the not-found log message. -/
theorem modelManager_write_missing_witness :
    (ModelManager.write ⟨false, [("JSON", "missing.json")]⟩
        (fun _ => FSEntry.absent)).1[0 + 1]? =
      some ("project.models[" ++ toString 0 ++ "] = \x7btype:\x27" ++ "JSON" ++
        "\x27,data:null\x7d;\n")
  ∧ ∃ msg, ModelManager.errMessage (fun _ => FSEntry.absent) "JSON" "missing.json" =
        some msg ∧
      msg ∈ (ModelManager.write ⟨false, [("JSON", "missing.json")]⟩
        (fun _ => FSEntry.absent)).2 :=
  (modelManager_write_missing ⟨false, [("JSON", "missing.json")]⟩
      (fun _ => FSEntry.absent) (by decide)).2.2 0 "JSON" "missing.json" rfl
    (fun c h => FSEntry.noConfusion h)

/-- Helper: resolving the ids of a layer list through a registry that
still holds every one of those layers returns the same layer list. -/
theorem filterMap_registry_resolve (registry : String → Option Layer)
    (ls : List Layer) (h : ∀ l ∈ ls, registry l.id = some l) :
    (ls.map Layer.id).filterMap registry = ls := by
  induction ls with
  | nil => rfl
  | cons a t ih =>
    simp only [List.map_cons, List.filterMap_cons, h a (List.mem_cons_self a t)]
    rw [ih (fun l hl => h l (List.mem_cons_of_mem a hl))]

/-- C10: `ImageManager.renderedImage` restores every map-settings field
it modifies — output size, extent, rotation, layer set and background
color — to the value held before the call, provided the project registry
still resolves each of the settings' layer ids to that layer. -/
theorem imageManager_renderedImage_restores (registry : String → Option Layer)
    (s : MapSettingsState) (w h : ℕ) (e : RRect) (t : Bool)
    (lids : Option (List String))
    (hreg : ∀ l ∈ s.layers, registry l.id = some l) :
    (ImageManager.renderedImage registry s w h e t lids).1 = s := by
  have hlayers : getLayersByLayerIds registry s.layerIds = s.layers := by
    unfold getLayersByLayerIds MapSettingsState.layerIds
    exact filterMap_registry_resolve registry s.layers hreg
  cases s with
  | mk os ex rot ls bg =>
    simp only [ImageManager.renderedImage]
    rw [show MapSettingsState.layerIds ⟨os, ex, rot, ls, bg⟩ = ls.map Layer.id from rfl] at *
    simp only [getLayersByLayerIds] at hlayers ⊢
    rw [hlayers]

/-- Witness for C10 at a concrete settings state, registry and render
request (transparent background and a different layer set installed
during the render). -/
theorem imageManager_renderedImage_restores_witness :
    (ImageManager.renderedImage
        (fun i => if i = "a" then some ⟨"a", 7⟩ else none)
        ⟨(800, 600), ⟨0, 0, 10, 10⟩, (1, 0), [⟨"a", 7⟩], 5⟩
        256 256 ⟨0, 0, 4, 2, 1, 0⟩ true (some ["b"])).1 =
      ⟨(800, 600), ⟨0, 0, 10, 10⟩, (1, 0), [⟨"a", 7⟩], 5⟩ :=
  imageManager_renderedImage_restores _ _ 256 256 _ true _ (by decide)

/-! ### Settings round-trip lemmas -/

/-- Helper: inserting into a key-sorted list is a permutation of
consing. -/
theorem insertByKey_perm {β : Type} (p : String × β) (l : List (String × β)) :
    (insertByKey p l).Perm (p :: l) := by
  induction l with
  | nil => exact List.Perm.refl _
  | cons q rest ih =>
    unfold insertByKey
    split
    · exact List.Perm.refl _
    · exact (ih.cons q).trans (List.Perm.swap p q rest)

/-- Helper: key-sorting is a permutation. -/
theorem sortByKey_perm {β : Type} (l : List (String × β)) :
    (sortByKey l).Perm l := by
  induction l with
  | nil => exact List.Perm.refl _
  | cons p rest ih =>
    unfold sortByKey at *
    simp only [List.foldr_cons]
    exact (insertByKey_perm p _).trans (ih.cons p)

/-- Helper: key order is preserved by insertion. -/
theorem keysSorted_insertByKey {β : Type} (p : String × β)
    (l : List (String × β)) (h : KeysSorted l) :
    KeysSorted (insertByKey p l) := by
  induction l with
  | nil => simp [insertByKey, KeysSorted]
  | cons q rest ih =>
    unfold insertByKey
    split
    · rename_i hle
      unfold KeysSorted at *
      simp only [List.map_cons, List.sorted_cons] at h ⊢
      refine ⟨?_, h⟩
      intro b hb
      rcases List.mem_cons.mp hb with hb | hb
      · exact hb ▸ hle
      · exact le_trans hle (h.1 b hb)
    · rename_i hgt
      have hqp : q.1 ≤ p.1 := le_of_not_le hgt
      unfold KeysSorted at *
      simp only [List.map_cons, List.sorted_cons] at h ⊢
      obtain ⟨hq, hrest⟩ := h
      refine ⟨?_, ih hrest⟩
      intro b hb
      have hb' : b ∈ (p :: rest).map Prod.fst :=
        (((insertByKey_perm p rest).map Prod.fst).mem_iff).mp hb
      rcases List.mem_cons.mp hb' with hb' | hb'
      · exact hb' ▸ hqp
      · exact hq b hb'

/-- Helper: key-sorting sorts the keys. -/
theorem keysSorted_sortByKey {β : Type} (l : List (String × β)) :
    KeysSorted (sortByKey l) := by
  induction l with
  | nil => simp [sortByKey, KeysSorted]
  | cons p rest ih =>
    unfold sortByKey at *
    simp only [List.foldr_cons]
    exact keysSorted_insertByKey p _ ih

/-- Helper: lookup through a key-preserving value transformation. -/
theorem lookup_map_value {β γ : Type} (f : β → γ) (l : List (String × β))
    (k : String) :
    (l.map (fun kv => (kv.1, f kv.2))).lookup k = (l.lookup k).map f := by
  induction l with
  | nil => rfl
  | cons a rest ih =>
    obtain ⟨a1, a2⟩ := a
    by_cases hk : k = a1
    · subst hk
      simp [List.lookup]
    · have hbeq : (k == a1) = false := beq_eq_false_iff_ne.mpr hk
      simp [List.lookup, hbeq, ih]

/-- Helper: a successful lookup is a membership. -/
theorem mem_of_lookup_some {β : Type} {l : List (String × β)} {k : String}
    {v : β} (h : l.lookup k = some v) : (k, v) ∈ l := by
  induction l with
  | nil => simp [List.lookup] at h
  | cons a rest ih =>
    obtain ⟨a1, a2⟩ := a
    by_cases hk : k = a1
    · subst hk
      simp [List.lookup] at h
      exact h ▸ List.mem_cons_self _ _
    · have hbeq : (k == a1) = false := beq_eq_false_iff_ne.mpr hk
      simp only [List.lookup, hbeq] at h
      exact List.mem_cons_of_mem _ (ih h)

/-- Helper: a permutation of an association list without duplicate keys
has the same lookup function. -/
theorem nodupKeys_of_perm {β : Type} {l l' : List (String × β)}
    (p : l.Perm l') (h : NodupKeys l) : NodupKeys l' :=
  h.perm (p.map Prod.fst)

/-- Helper: key distinctness restricts to the tail. -/
theorem nodupKeys_cons_tail {β : Type} {a : String × β} {l : List (String × β)}
    (h : NodupKeys (a :: l)) : NodupKeys l := by
  unfold NodupKeys at h ⊢
  simp only [List.map_cons, List.nodup_cons] at h
  exact h.2

theorem perm_lookup {β : Type} {l l' : List (String × β)} (p : l.Perm l')
    (nd : NodupKeys l) : ∀ k : String, l.lookup k = l'.lookup k := by
  induction p with
  | nil => intro k; rfl
  | cons x p ih =>
    intro k
    obtain ⟨x1, x2⟩ := x
    by_cases hk : k = x1
    · subst hk
      simp [List.lookup]
    · have hbeq : (k == x1) = false := beq_eq_false_iff_ne.mpr hk
      simp [List.lookup, hbeq, ih (nodupKeys_cons_tail nd) k]
  | swap x y l =>
    intro k
    obtain ⟨x1, x2⟩ := x
    obtain ⟨y1, y2⟩ := y
    have hxy : y1 ≠ x1 := by
      unfold NodupKeys at nd
      simp only [List.map_cons, List.nodup_cons, List.mem_cons] at nd
      exact fun hcontra => nd.1 (Or.inl hcontra)
    by_cases hky : k = y1 <;> by_cases hkx : k = x1
    · exact absurd (hky.symm.trans hkx) hxy
    · simp [List.lookup, beq_iff_eq.mpr hky, beq_eq_false_iff_ne.mpr hkx]
    · simp [List.lookup, beq_eq_false_iff_ne.mpr hky, beq_iff_eq.mpr hkx]
    · simp [List.lookup, beq_eq_false_iff_ne.mpr hky, beq_eq_false_iff_ne.mpr hkx]
  | trans p1 p2 ih1 ih2 =>
    intro k
    exact (ih1 nd k).trans (ih2 (nodupKeys_of_perm p1 nd) k)

/-- Helper: a key-preserving value transformation preserves key
distinctness. -/
theorem nodupKeys_map_value {β γ : Type} (f : β → γ) (l : List (String × β))
    (h : NodupKeys l) : NodupKeys (l.map (fun kv => (kv.1, f kv.2))) := by
  unfold NodupKeys at *
  rw [List.map_map]
  rw [show (Prod.fst ∘ fun kv : String × β => (kv.1, f kv.2)) = Prod.fst from
    funext fun kv => rfl]
  exact h

/-- Helper: key-sorting an association list without duplicate keys
preserves its lookup function. -/
theorem sortByKey_lookup {β : Type} (l : List (String × β)) (h : NodupKeys l)
    (k : String) : (sortByKey l).lookup k = l.lookup k :=
  perm_lookup (sortByKey_perm l) (nodupKeys_of_perm (sortByKey_perm l).symm h) k

/-- Helper: sorting the inner levels of a settings value yields an
equivalent value. -/
theorem sortTopValue_equiv (v : TopValue) (h : wfTopValue v) :
    topValueEquiv (sortTopValue v) v := by
  cases v with
  | prim p => exact rfl
  | layers m =>
    obtain ⟨hnd, hinner⟩ := h
    show layersEquiv _ m
    intro k
    rw [sortByKey_lookup _ (nodupKeys_map_value _ _ hnd) k, lookup_map_value]
    cases hk : m.lookup k with
    | none => exact trivial
    | some pm =>
      show propsEquiv (sortByKey pm) pm
      intro k2
      exact sortByKey_lookup pm (hinner (k, pm) (mem_of_lookup_some hk)) k2

/-- Helper: the serialized (key-sorted) settings mapping is equivalent
to the original. -/
theorem dumpSettings_equiv (s : Settings) (h : wfSettings s) :
    settingsEquiv (dumpSettings s) s := by
  intro k
  unfold dumpSettings
  rw [sortByKey_lookup _ (nodupKeys_map_value _ _ h.1) k, lookup_map_value]
  cases hk : s.lookup k with
  | none => exact trivial
  | some v =>
    show topValueEquiv (sortTopValue v) v
    exact sortTopValue_equiv v (h.2 (k, v) (mem_of_lookup_some hk))

/-- Helper: the serialized settings mapping has its keys sorted at every
level. -/
theorem dumpSettings_sorted (s : Settings) :
    settingsKeysSorted (dumpSettings s) := by
  refine ⟨keysSorted_sortByKey _, ?_⟩
  intro kv hkv
  have hkv' : kv ∈ s.map (fun kv => (kv.1, sortTopValue kv.2)) :=
    ((sortByKey_perm _).mem_iff).mp hkv
  obtain ⟨kv0, hkv0, rfl⟩ := List.mem_map.mp hkv'
  cases hv : kv0.2 with
  | prim p => simp [sortTopValue, hv]
  | layers m =>
    simp only [sortTopValue, hv]
    refine ⟨keysSorted_sortByKey _, ?_⟩
    intro lv hlv
    have hlv' : lv ∈ m.map (fun lv => (lv.1, sortByKey lv.2)) :=
      ((sortByKey_perm _).mem_iff).mp hlv
    obtain ⟨lv0, hlv0, rfl⟩ := List.mem_map.mp hlv'
    exact keysSorted_sortByKey _

/-- C5: saving the dialog's settings and loading the file back
reproduces an equivalent settings mapping (same keys and values at every
level); the file is written UTF-8 encoded, pretty-printed with indent 2
and with keys sorted at every level; and loading succeeds independently
of the key ordering of the serialized form (any permutation of the
serialized content loads to an equivalent mapping). -/
theorem dialog_settings_roundtrip (s : Settings) (hwf : wfSettings s) :
    settingsEquiv (loadSettingsFile (saveSettingsFile s)) s
  ∧ (saveSettingsFile s).encoding = "UTF-8"
  ∧ (saveSettingsFile s).indent = 2
  ∧ (saveSettingsFile s).sortKeys = true
  ∧ settingsKeysSorted (saveSettingsFile s).content
  ∧ ∀ t : Settings, t.Perm (saveSettingsFile s).content →
      settingsEquiv (loadSettingsFile ⟨"UTF-8", 2, true, t⟩) s := by
  refine ⟨dumpSettings_equiv s hwf, rfl, rfl, rfl, dumpSettings_sorted s, ?_⟩
  intro t ht k
  have hnd : NodupKeys (dumpSettings s) :=
    nodupKeys_of_perm (sortByKey_perm _).symm (nodupKeys_map_value _ _ hwf.1)
  have hlk : (loadSettingsFile ⟨"UTF-8", 2, true, t⟩).lookup k =
      (dumpSettings s).lookup k :=
    perm_lookup ht (nodupKeys_of_perm ht.symm hnd) k
  show match (loadSettingsFile ⟨"UTF-8", 2, true, t⟩).lookup k, s.lookup k with
    | some x, some y => topValueEquiv x y
    | none, none => True
    | _, _ => False
  rw [hlk]
  exact dumpSettings_equiv s hwf k

/-- Witness for C5 at a concrete settings mapping with a scalar entry
and a per-category entry. -/
theorem dialog_settings_roundtrip_witness :
    settingsEquiv
      (loadSettingsFile (saveSettingsFile
        [("Template", TopValue.prim (Prim.str "3DViewer.html")),
         ("OptDEM", TopValue.layers [("layer1", [("visible", Prim.bool true)])])]))
      [("Template", TopValue.prim (Prim.str "3DViewer.html")),
       ("OptDEM", TopValue.layers [("layer1", [("visible", Prim.bool true)])])] :=
  (dialog_settings_roundtrip _ (by decide)).1

end Qgis2threejs
